import Mathlib

/-!
Shallow embedding of `0x02-redis_basic/exercise.py`.

The program is a thin instrumentation layer over a Redis client:
two decorators (`count_calls`, `call_history`), a `Cache` class
(`__init__`, `store`, `get`, `get_str`; note that `get_int` is defined at
module level in the source, dedented out of the class body), and a
`replay` renderer.

Modelling conventions:
* Redis byte-strings are modelled by their utf-8 text (`String`); every
  value the program writes is valid utf-8 text, so the `.decode("utf-8")`
  steps become the identity.
* Raised Python exceptions and Redis errors are modelled by
  `Except Unit` / `Option` results; a method body that raises yields
  `none` as its output while still returning the (possibly mutated) state.
* `uuid.uuid4()` is modelled by an explicit stream `uuids : Nat → String`
  indexed by a `tick` counter carried in the cache state.
* Decimal rendering/parsing of integers (the text form `str(int)` and the
  parse used by Redis `INCR` and Python `int()`) is given by explicit
  decimal functions `intToDec` / `parseInt` below.
-/

/-- Decimal digit characters of `n`, most significant digit first; `fuel`
bounds the recursion depth (any `fuel` with `n < 10 ^ fuel` is enough). -/
def decChars : Nat → Nat → List Char
  | 0, _ => []
  | f + 1, n =>
    if n < 10 then [Nat.digitChar n]
    else decChars f (n / 10) ++ [Nat.digitChar (n % 10)]

/-- Decimal text of a natural number. -/
def natToDec (n : Nat) : String := ⟨decChars (n + 1) n⟩

/-- Decimal text of an integer: the form written by Redis `INCR` and by
Python's str() on an int. -/
def intToDec : Int → String
  | Int.ofNat m => natToDec m
  | Int.negSucc m => "-" ++ natToDec (m + 1)

/-- One step of decimal accumulation: previous value times ten plus the
value of the digit character (48 is the code of the zero digit). -/
def decStep (a : Nat) (c : Char) : Nat := a * 10 + (c.toNat - 48)

/-- Parse a nonempty all-digit character list as a natural number. -/
def parseDigits (cs : List Char) : Option Nat :=
  if cs.isEmpty then none
  else if cs.all Char.isDigit then some (cs.foldl decStep 0) else none

/-- Character-list form of the integer parse: an optional minus sign
followed by decimal digits. -/
def parseIntChars : List Char → Option Int
  | [] => none
  | c :: rest =>
    if c = '-' then (parseDigits rest).map (fun n => -(n : Int))
    else (parseDigits (c :: rest)).map (fun n => (n : Int))

/-- Integer parse as performed by Redis string-to-integer conversion and by
Python's int() on the text the program stores. -/
def parseInt (s : String) : Option Int := parseIntChars s.data

/-- A value held at one Redis key: either a byte-string or a list. -/
inductive RVal where
  | str (v : String)
  | list (vs : List String)
deriving DecidableEq

/-- The keyspace of the external Redis store, as an association list. -/
abbrev RedisState := List (String × RVal)

/-- Value lookup in the keyspace. -/
def rlookup : RedisState → String → Option RVal
  | [], _ => none
  | (k1, v) :: r, k => if k = k1 then some v else rlookup r k

/-- Write a value at a key, replacing any previous binding. -/
def rsetVal : RedisState → String → RVal → RedisState
  | [], k, v => [(k, v)]
  | (k1, v1) :: r, k, v => if k = k1 then (k, v) :: r else (k1, v1) :: rsetVal r k v

/-- Redis SET: overwrite the key with a byte-string value. -/
def rset (r : RedisState) (k : String) (v : String) : RedisState :=
  rsetVal r k (RVal.str v)

/-- Redis GET: absent keys give `none`; a key holding a list raises a
wrong-type error. -/
def rget (r : RedisState) (k : String) : Except Unit (Option String) :=
  match rlookup r k with
  | none => Except.ok none
  | some (RVal.str v) => Except.ok (some v)
  | some (RVal.list _) => Except.error ()

/-- Redis INCR: parse the stored text as an integer and store its
successor; an absent key starts from zero. Non-integer or list-typed
values raise an error. -/
def rincr (r : RedisState) (k : String) : Except Unit (RedisState × Int) :=
  match rlookup r k with
  | none => Except.ok (rset r k (intToDec 1), 1)
  | some (RVal.str v) =>
    match parseInt v with
    | some n => Except.ok (rset r k (intToDec (n + 1)), n + 1)
    | none => Except.error ()
  | some (RVal.list _) => Except.error ()

/-- Redis RPUSH of a single element: an absent key becomes a one-element
list; a byte-string-typed key raises a wrong-type error. -/
def rpush (r : RedisState) (k : String) (x : String) : Except Unit RedisState :=
  match rlookup r k with
  | none => Except.ok (rsetVal r k (RVal.list [x]))
  | some (RVal.list vs) => Except.ok (rsetVal r k (RVal.list (vs ++ [x])))
  | some (RVal.str _) => Except.error ()

/-- Redis LRANGE of the whole list (arguments 0 and -1): absent keys give
the empty list; a byte-string-typed key raises a wrong-type error. -/
def rlrangeAll (r : RedisState) (k : String) : Except Unit (List String) :=
  match rlookup r k with
  | none => Except.ok []
  | some (RVal.list vs) => Except.ok vs
  | some (RVal.str _) => Except.error ()

/-- Redis EXISTS of a single key. -/
def rexists (r : RedisState) (k : String) : Bool := (rlookup r k).isSome

/-- A Python float, identified by its repr text (which is all the program
ever observes of it: redis-py encodes a float as its repr text). -/
structure PyFloat where
  rep : String
deriving DecidableEq

/-- Python values flowing through the program. `pybytes` carries the utf-8
text of the byte-string; `pyother` stands for any object outside the
scalar types, identified by its repr text. -/
inductive PyObj where
  | pynone
  | pystr (s : String)
  | pybytes (b : String)
  | pyint (n : Int)
  | pyfloat (f : PyFloat)
  | pyother (rep : String)
deriving DecidableEq

/-- The scalar types accepted as redis-py values: str, bytes, int, float
(the annotated value type of the store method). -/
def isAllowedScalar : PyObj → Bool
  | PyObj.pystr _ => true
  | PyObj.pybytes _ => true
  | PyObj.pyint _ => true
  | PyObj.pyfloat _ => true
  | _ => false

/-- The redis-py encoder applied when a value is sent to the store:
bytes pass through, str is utf-8 encoded, int and float are rendered as
decimal/repr text; any other type raises DataError. -/
def redisEncode : PyObj → Except Unit String
  | PyObj.pystr s => Except.ok s
  | PyObj.pybytes b => Except.ok b
  | PyObj.pyint n => Except.ok (intToDec n)
  | PyObj.pyfloat f => Except.ok f.rep
  | _ => Except.error ()

/-- A single-quote character as a string (used by Python repr of str and
bytes values). -/
def sQuote : String := ⟨[Char.ofNat 39]⟩

/-- Python str() of a value. Note str() of a byte-string is its repr
form starting with the letter b, not its decoded text; quoting/escaping
inside the repr is simplified to plain single quotes, which is exact for
the quote-free printable text this program produces. -/
def pyStr : PyObj → String
  | PyObj.pynone => "None"
  | PyObj.pystr s => s
  | PyObj.pybytes b => "b" ++ sQuote ++ b ++ sQuote
  | PyObj.pyint n => intToDec n
  | PyObj.pyfloat f => f.rep
  | PyObj.pyother rep => rep

/-- Python repr() of a value (same simplification of string quoting as in
`pyStr`). -/
def pyRepr : PyObj → String
  | PyObj.pynone => "None"
  | PyObj.pystr s => sQuote ++ s ++ sQuote
  | PyObj.pybytes b => "b" ++ sQuote ++ b ++ sQuote
  | PyObj.pyint n => intToDec n
  | PyObj.pyfloat f => f.rep
  | PyObj.pyother rep => rep

/-- Python str() of the one-element positional-argument tuple, which is
what the history decorator pushes onto the inputs log for the store
method. -/
def pyReprArgs1 (d : PyObj) : String := "(" ++ pyRepr d ++ ",)"

/-- Python int() applied to the values the get method can hand back (bytes
or None); int() of None and int() of non-numeric text raise. int() of a
float truncates, but no program path applies int() to a float, so that
case is mapped to an error alongside the other unreachable ones. -/
def pyIntOf : PyObj → Except Unit Int
  | PyObj.pyint n => Except.ok n
  | PyObj.pystr s =>
    match parseInt s with
    | some n => Except.ok n
    | none => Except.error ()
  | PyObj.pybytes b =>
    match parseInt b with
    | some n => Except.ok n
    | none => Except.error ()
  | _ => Except.error ()

/-- The state of one Cache instance: `live` is whether the `_redis`
attribute is a Redis client instance (the check both decorators make),
`redis` the contents of the external store, and `uuids`/`tick` the stream
of keys the uuid generator will hand out. -/
structure CacheState where
  live : Bool
  redis : RedisState
  uuids : Nat → String
  tick : Nat

/-- A store-backed method bound to a cache instance: it receives the
state, positional arguments `α` and keyword arguments `κ`, and returns the
new state together with `some` output, or `none` when its body raises. -/
def Meth (α κ β : Type) : Type := CacheState → α → κ → CacheState × Option β

/-- The count_calls decorator: when the handle is a Redis instance, INCR
the counter keyed by the method's qualified name, then invoke the method;
an INCR failure propagates (there is no try/except in the source) and the
body is then not invoked. When the handle is not a Redis instance the
increment is skipped and the method is invoked directly. -/
def count_calls {α κ β : Type} (qualname : String) (method : Meth α κ β) : Meth α κ β :=
  fun self args kwargs =>
    if self.live then
      match rincr self.redis qualname with
      | Except.ok rn => method { self with redis := rn.1 } args kwargs
      | Except.error _ => (self, none)
    else method self args kwargs

/-- The call_history decorator: push the str() of the positional argument
tuple onto the inputs log (when the handle is a Redis instance), invoke
the method, then push the encoded output onto the outputs log
(re-checking the handle) and return the output unchanged. A raising body
propagates with no output push; a failing push or unencodable output
propagates. `serIn` is the str() serialization of the positional tuple
and `serOut` the redis-py encoding of the output. -/
def call_history {α κ β : Type} (qualname : String) (serIn : α → String)
    (serOut : β → Except Unit String) (method : Meth α κ β) : Meth α κ β :=
  fun self args kwargs =>
    let key_inp := qualname ++ ":inputs"
    let key_outp := qualname ++ ":outputs"
    match (if self.live then rpush self.redis key_inp (serIn args) else Except.ok self.redis) with
    | Except.error _ => (self, none)
    | Except.ok r1 =>
      match method { self with redis := r1 } args kwargs with
      | (c2, none) => (c2, none)
      | (c2, some output) =>
        if c2.live then
          match serOut output with
          | Except.error _ => (c2, none)
          | Except.ok os =>
            match rpush c2.redis key_outp os with
            | Except.error _ => (c2, none)
            | Except.ok r2 => ({ c2 with redis := r2 }, some output)
        else (c2, some output)

/-- The qualified name of the store method, used as the namespace root of
its instrumentation keys. -/
def storeQN : String := "Cache.store"

/-- The attribute names bound in the Cache class body of the source
(`get_int` is dedented to module level and is not among them). -/
def cacheMethods : List String := ["__init__", "store", "get", "get_str"]

/-- The three instrumentation keys of the store method. -/
def instrKeys : List String := [storeQN, storeQN ++ ":inputs", storeQN ++ ":outputs"]

/-- The undecorated body of the store method: draw a fresh uuid key, SET
the encoded data under it, and return the key. Encoding failure
(DataError, for a value outside the scalar types) raises before anything
is written; a non-Redis handle raises on the set attribute access. The
uuid is drawn before the write in either case. -/
def Cache.storeBody : Meth PyObj Unit String :=
  fun self data _kw =>
    let key := self.uuids self.tick
    let self1 : CacheState := { self with tick := self.tick + 1 }
    if self.live then
      match redisEncode data with
      | Except.error _ => (self1, none)
      | Except.ok v => ({ self1 with redis := rset self1.redis key v }, some key)
    else (self1, none)

/-- The store method as the caller sees it: the body wrapped by
call_history (inner) and count_calls (outer), per the decorator order in
the source. -/
def Cache.store : Meth PyObj Unit String :=
  count_calls storeQN
    (call_history storeQN pyReprArgs1 (fun s => redisEncode (PyObj.pystr s)) Cache.storeBody)

/-- The Cache constructor: connect and flush the whole database, so every
new instance starts from an empty keyspace. -/
def Cache.init (uuids : Nat → String) : CacheState :=
  { live := true, redis := [], uuids := uuids, tick := 0 }

/-- The get method: read the raw value at the key (bytes, or None when
the key is absent) and, when a conversion function is supplied, return
the function applied to that raw value — including applying it to None. -/
def Cache.get (self : CacheState) (key : String)
    (fn : Option (PyObj → Except Unit PyObj)) : Except Unit PyObj :=
  if self.live then
    match rget self.redis key with
    | Except.error e => Except.error e
    | Except.ok d =>
      match fn with
      | some f => f (match d with | none => PyObj.pynone | some b => PyObj.pybytes b)
      | none => Except.ok (match d with | none => PyObj.pynone | some b => PyObj.pybytes b)
  else Except.error ()

/-- The get_str method: get without a conversion function, then None is
propagated and any other value is passed through Python str(). -/
def Cache.get_str (self : CacheState) (key : String) : Except Unit (Option String) :=
  match Cache.get self key none with
  | Except.error e => Except.error e
  | Except.ok PyObj.pynone => Except.ok none
  | Except.ok d => Except.ok (some (pyStr d))

/-- The module-level get_int of the source (its definition is dedented
out of the Cache class body): get without a conversion function, then
None is propagated and any other value is passed through Python int(). -/
def get_int (self : CacheState) (key : String) : Except Unit (Option Int) :=
  match Cache.get self key none with
  | Except.error e => Except.error e
  | Except.ok PyObj.pynone => Except.ok none
  | Except.ok d =>
    match pyIntOf d with
    | Except.error e => Except.error e
    | Except.ok n => Except.ok (some n)

/-- The argument replay receives: Python None, a function without a bound
instance, or a method bound to a cache instance. A bound instance whose
`_redis` attribute is absent or not a Redis client is modelled by
`live = false`. -/
inductive FnRef where
  | pynone
  | unbound (qualname : String)
  | bound (inst : CacheState) (qualname : String)

/-- The call-count read in replay: zero when the counter key does not
exist, otherwise int() of the stored text (with empty text falsy,
defaulting to zero). -/
def replayCount (r : RedisState) (qn : String) : Except Unit Int :=
  if rexists r qn then
    match rget r qn with
    | Except.error e => Except.error e
    | Except.ok none => Except.ok 0
    | Except.ok (some v) =>
      if v = "" then Except.ok 0
      else
        match parseInt v with
        | some n => Except.ok n
        | none => Except.error ()
  else Except.ok 0

/-- The format of one replayed call line. -/
def replayLine (qn : String) (inp : String) (outp : String) : String :=
  qn ++ "(*" ++ inp ++ ") -> " ++ outp

/-- The lines replay prints for a live store handle: the summary line
followed by one line per zipped input/output pair, in stored order (the
utf-8 decode of the source is the identity under the byte-strings-as-text
convention). -/
def replayLines (r : RedisState) (qn : String) : Except Unit (List String) :=
  match replayCount r qn with
  | Except.error e => Except.error e
  | Except.ok cnt =>
    match rlrangeAll r (qn ++ ":inputs") with
    | Except.error e => Except.error e
    | Except.ok ins =>
      match rlrangeAll r (qn ++ ":outputs") with
      | Except.error e => Except.error e
      | Except.ok outs =>
        Except.ok ((qn ++ " was called " ++ intToDec cnt ++ " times:")
          :: List.zipWith (replayLine qn) ins outs)

/-- The replay function: silently prints nothing on None, on a function
without a bound instance, or on an instance without a live Redis handle;
otherwise renders the summary and call lines. -/
def replay (fn : FnRef) : Except Unit (List String) :=
  match fn with
  | FnRef.pynone => Except.ok []
  | FnRef.unbound _ => Except.ok []
  | FnRef.bound inst qn =>
    if inst.live then replayLines inst.redis qn else Except.ok []

/-- Run a wrapped method over a list of invocations (argument/keyword
pairs), threading the state and collecting each call's outcome. -/
def iterCalls {α κ β : Type} (w : Meth α κ β) :
    CacheState → List (α × κ) → CacheState × List (Option β)
  | c, [] => (c, [])
  | c, (a, k) :: rest =>
    let r := w c a k
    let rr := iterCalls w r.1 rest
    (rr.1, r.2 :: rr.2)

/-- The counter value an observer reads at a key: zero when absent or
non-integer, the parsed integer otherwise (the read replay performs). -/
def readCounter (r : RedisState) (k : String) : Int :=
  match rlookup r k with
  | some (RVal.str v) => (parseInt v).getD 0
  | _ => 0

/-- The proposition that a redis key currently holds the call log `L`:
either the key is absent and `L` is empty, or it holds exactly list `L`. -/
def logIs (r : RedisState) (k : String) (L : List String) : Prop :=
  (rlookup r k = none ∧ L = []) ∨ rlookup r k = some (RVal.list L)

/-- The proposition that a redis key currently holds the counter value
`n`: either the key is absent and `n` is zero, or it holds the decimal
text of `n`. -/
def ctrIs (r : RedisState) (k : String) (n : Int) : Prop :=
  (rlookup r k = none ∧ n = 0) ∨ rlookup r k = some (RVal.str (intToDec n))

/-- The cache state `c` with its store contents replaced by `r`. -/
def withRedis (c : CacheState) (r : RedisState) : CacheState := { c with redis := r }

/-- A uuid stream handing out one fixed key (only its first element is
ever drawn in the single-store scenarios below). -/
def uuidsA : Nat → String := fun _ => "keyA"

/-- A uuid stream for the two-store scenario of the spec. -/
def uuidsPair : Nat → String := fun n => if n = 0 then ("k1") else ("k2")

/-- A freshly constructed cache instance. -/
def cacheFresh : CacheState := Cache.init uuidsA

/-- The state after the spec scenario: fresh facade, then store of the
text foo, then store of the integer 123. -/
def scenState : CacheState :=
  (Cache.store ((Cache.store (Cache.init uuidsPair) (PyObj.pystr ("foo")) ()).1)
    (PyObj.pyint 123) ()).1

/-- A probe method body that ignores its arguments and returns 42. -/
def meth42 : Meth Unit Unit Nat := fun c _ _ => (c, some 42)

/-- A store state whose counter key already holds a list value, so that
INCR on it fails with a wrong-type error. -/
def cacheWrongType : CacheState :=
  { live := true, redis := [(storeQN, RVal.list [])], uuids := fun _ => "u", tick := 0 }

/-- The integer-decoding transform a caller may pass to get (Python int
wrapped as a conversion function). -/
def intTransform : PyObj → Except Unit PyObj := fun d =>
  match pyIntOf d with
  | Except.ok n => Except.ok (PyObj.pyint n)
  | Except.error e => Except.error e

/-- The string-decoding transform a caller may pass to get (Python str
wrapped as a conversion function). -/
def strTransform : PyObj → Except Unit PyObj := fun d => Except.ok (PyObj.pystr (pyStr d))

/-- A probe body that returns a fixed one-letter text while leaving the
state alone, used to instantiate the generic wrapper theorems. -/
def methR : Meth Unit Unit String := fun c _ _ => (c, some ("r"))

/-- A serialization of the unit positional-argument tuple. -/
def serInU : Unit → String := fun _ => "(())"

/-- The identity output encoding used for string-valued outputs. -/
def serOutS : String → Except Unit String := fun s => Except.ok s

/-- Two probe invocations. -/
def callsTwo : List (Unit × Unit) := [((), ()), ((), ())]

/-- A probe body that returns its keyword arguments as its output. -/
def methKw {α κ : Type} : Meth α κ κ := fun c _ kw => (c, some kw)

/-- A cache instance whose handle is not a Redis client. -/
def cacheDead : CacheState := { live := false, redis := [], uuids := fun _ => "u", tick := 0 }

/-- A store state holding a counter of 2 and logs of unequal lengths
(three recorded inputs, two recorded outputs). -/
def cacheUneven : CacheState :=
  { live := true,
    redis := [(storeQN, RVal.str ("2")),
      (storeQN ++ ":inputs", RVal.list ["(1,)", "(2,)", "(3,)"]),
      (storeQN ++ ":outputs", RVal.list ["ka", "kb"])],
    uuids := fun _ => "u", tick := 0 }

theorem digitChar_isDigit (d : Nat) (h : d < 10) : (Nat.digitChar d).isDigit = true := by
  interval_cases d <;> decide

theorem decStep_digitChar (a d : Nat) (h : d < 10) : decStep a (Nat.digitChar d) = a * 10 + d := by
  unfold decStep
  congr 1
  interval_cases d <;> decide

theorem decChars_spec (f : Nat) : ∀ (n : Nat), 0 < f → n < 10 ^ f →
    decChars f n ≠ [] ∧ (decChars f n).all Char.isDigit = true ∧
    ∀ a : Nat, (decChars f n).foldl decStep a = a * 10 ^ (decChars f n).length + n := by
  induction f with
  | zero => intro n h; omega
  | succ f ih =>
    intro n _ hn
    by_cases h10 : n < 10
    · refine ⟨by simp [decChars, h10], by simp [decChars, h10, digitChar_isDigit n h10], ?_⟩
      intro a
      simp [decChars, h10, List.foldl, decStep_digitChar a n h10]
    · have hf : 0 < f := by
        rcases Nat.eq_zero_or_pos f with h0 | h0
        · subst h0; simp at hn; omega
        · exact h0
      have hdiv : n / 10 < 10 ^ f := by
        rw [pow_succ, Nat.mul_comm] at hn
        exact Nat.div_lt_of_lt_mul hn
      obtain ⟨hne, hdig, hfold⟩ := ih (n / 10) hf hdiv
      have hmod : n % 10 < 10 := Nat.mod_lt _ (by norm_num)
      refine ⟨by simp [decChars, h10], ?_, ?_⟩
      · simp only [decChars, if_neg h10, List.all_append, hdig, Bool.true_and,
          List.all_cons, List.all_nil, Bool.and_true]
        exact digitChar_isDigit _ hmod
      · intro a
        simp only [decChars, if_neg h10, List.foldl_append, List.foldl, hfold a,
          List.length_append, List.length_cons, List.length_nil]
        rw [decStep_digitChar _ _ hmod, pow_succ]
        have := Nat.div_add_mod n 10
        ring_nf
        omega

theorem parseDigits_decChars (f n : Nat) (h0 : 0 < f) (hn : n < 10 ^ f) :
    parseDigits (decChars f n) = some n := by
  obtain ⟨hne, hdig, hfold⟩ := decChars_spec f n h0 hn
  unfold parseDigits
  rw [if_neg (by simpa [List.isEmpty_iff] using hne), if_pos hdig]
  have := hfold 0
  simp only [Nat.zero_mul, Nat.zero_add] at this
  rw [this]

theorem lt_ten_pow_succ (n : Nat) : n < 10 ^ (n + 1) := by
  calc n < 10 ^ n := Nat.lt_pow_self (by norm_num) n
    _ ≤ 10 ^ (n + 1) := Nat.pow_le_pow_right (by norm_num) (Nat.le_succ n)

theorem parseDigits_natToDec (n : Nat) : parseDigits (natToDec n).data = some n :=
  parseDigits_decChars (n + 1) n (Nat.succ_pos n) (lt_ten_pow_succ n)

theorem natToDec_data_ne_nil (n : Nat) : (natToDec n).data ≠ [] :=
  (decChars_spec (n + 1) n (Nat.succ_pos n) (lt_ten_pow_succ n)).1

theorem natToDec_all_digits (n : Nat) : (natToDec n).data.all Char.isDigit = true :=
  (decChars_spec (n + 1) n (Nat.succ_pos n) (lt_ten_pow_succ n)).2.1

theorem parseInt_intToDec (n : Int) : parseInt (intToDec n) = some n := by
  cases n with
  | ofNat m =>
    show parseIntChars (natToDec m).data = some (Int.ofNat m)
    rcases hd : (natToDec m).data with _ | ⟨c, rest⟩
    · exact absurd hd (natToDec_data_ne_nil m)
    · have hdig : c.isDigit = true := by
        have := natToDec_all_digits m
        rw [hd] at this
        simp only [List.all_cons, Bool.and_eq_true] at this
        exact this.1
      have hcm : ¬ c = '-' := by
        intro h
        rw [h] at hdig
        exact absurd hdig (by decide)
      have hp := parseDigits_natToDec m
      rw [hd] at hp
      simp [parseIntChars, if_neg hcm, hp]
  | negSucc m =>
    show parseInt ("-" ++ natToDec (m + 1)) = some (Int.negSucc m)
    unfold parseInt
    have hd : ("-" ++ natToDec (m + 1)).data = '-' :: (natToDec (m + 1)).data := by
      rw [String.data_append]
      rfl
    rw [hd]
    simp [parseIntChars, parseDigits_natToDec (m + 1), Int.negSucc_eq]

theorem intToDec_ne_empty (n : Int) : ¬ intToDec n = "" := by
  intro h
  have hdata := congrArg String.data h
  cases n with
  | ofNat m => exact absurd hdata (natToDec_data_ne_nil m)
  | negSucc m =>
    rw [show intToDec (Int.negSucc m) = "-" ++ natToDec (m + 1) from rfl,
      String.data_append] at hdata
    simp at hdata

theorem rlookup_rsetVal_self (r : RedisState) (k : String) (v : RVal) :
    rlookup (rsetVal r k v) k = some v := by
  induction r with
  | nil => simp [rsetVal, rlookup]
  | cons p r ih =>
    obtain ⟨k1, v1⟩ := p
    by_cases h : k = k1 <;> simp [rsetVal, rlookup, h, ih]

theorem rlookup_rsetVal_ne (r : RedisState) (k k1 : String) (v : RVal) (h : ¬ k = k1) :
    rlookup (rsetVal r k1 v) k = rlookup r k := by
  induction r with
  | nil => simp [rsetVal, rlookup, h]
  | cons p r ih =>
    obtain ⟨k2, v2⟩ := p
    by_cases h2 : k1 = k2
    · subst h2
      simp [rsetVal, rlookup, h]
    · by_cases h3 : k = k2 <;> simp [rsetVal, rlookup, h2, h3, ih]

theorem string_append_right_inj (s t u : String) (h : s ++ t = s ++ u) : t = u := by
  have hd := congrArg String.data h
  rw [String.data_append, String.data_append] at hd
  exact String.ext (List.append_cancel_left hd)

theorem inputs_ne_outputs (qn : String) : ¬ qn ++ ":inputs" = qn ++ ":outputs" := by
  intro h
  have : (":inputs" : String) = ":outputs" := string_append_right_inj qn _ _ h
  exact absurd (congrArg String.data this) (by decide)

theorem rincr_of_ctrIs (r : RedisState) (k : String) (n : Int) (h : ctrIs r k n) :
    rincr r k = Except.ok (rset r k (intToDec (n + 1)), n + 1) := by
  rcases h with ⟨h0, hn⟩ | h1
  · subst hn
    unfold rincr
    rw [h0]
    norm_num
  · unfold rincr
    rw [h1]
    simp [parseInt_intToDec n]

theorem rpush_of_logIs (r : RedisState) (k : String) (L : List String) (x : String)
    (h : logIs r k L) : rpush r k x = Except.ok (rsetVal r k (RVal.list (L ++ [x]))) := by
  rcases h with ⟨h0, hL⟩ | h1
  · subst hL
    unfold rpush
    rw [h0]
    simp
  · unfold rpush
    rw [h1]

theorem rlrangeAll_of_logIs (r : RedisState) (k : String) (L : List String)
    (h : logIs r k L) : rlrangeAll r k = Except.ok L := by
  rcases h with ⟨h0, hL⟩ | h1
  · subst hL
    unfold rlrangeAll
    rw [h0]
  · unfold rlrangeAll
    rw [h1]

theorem replayCount_of_ctrIs (r : RedisState) (qn : String) (n : Int) (h : ctrIs r qn n) :
    replayCount r qn = Except.ok n := by
  rcases h with ⟨h0, hn⟩ | h1
  · subst hn
    unfold replayCount rexists
    rw [h0]
    rfl
  · have hex : rexists r qn = true := by
      unfold rexists
      rw [h1]
      rfl
    have hget : rget r qn = Except.ok (some (intToDec n)) := by
      unfold rget
      rw [h1]
    unfold replayCount
    simp [hex, hget, intToDec_ne_empty n, parseInt_intToDec]

theorem iterCalls_results_length {α κ β : Type} (w : Meth α κ β) (c : CacheState)
    (calls : List (α × κ)) : (iterCalls w c calls).2.length = calls.length := by
  induction calls generalizing c with
  | nil => rfl
  | cons p rest ih =>
    obtain ⟨a, k⟩ := p
    simp [iterCalls, ih]

theorem readCounter_some (r : RedisState) (k : String) (n : Int)
    (h : rlookup r k = some (RVal.str (intToDec n))) : readCounter r k = n := by
  unfold readCounter
  rw [h]
  simp [parseInt_intToDec]

theorem readCounter_absent (r : RedisState) (k : String) (h : rlookup r k = none) :
    readCounter r k = 0 := by
  unfold readCounter
  rw [h]

theorem count_calls_step {α κ β : Type} (m : Meth α κ β) (qn : String) (c : CacheState)
    (a : α) (k : κ) (n : Int) (hlive : c.live = true) (hctr : ctrIs c.redis qn n) :
    count_calls qn m c a k = m { c with redis := rset c.redis qn (intToDec (n + 1)) } a k := by
  unfold count_calls
  rw [rincr_of_ctrIs _ _ _ hctr]
  simp [hlive]

theorem iter_count_aux {α κ β : Type} (m : Meth α κ β) (qn : String)
    (hpres : ∀ c a k, ((m c a k).1).live = c.live
      ∧ rlookup ((m c a k).1).redis qn = rlookup c.redis qn) :
    ∀ (calls : List (α × κ)) (c : CacheState) (n : Int), c.live = true →
      rlookup c.redis qn = some (RVal.str (intToDec n)) →
      rlookup (iterCalls (count_calls qn m) c calls).1.redis qn
        = some (RVal.str (intToDec (n + calls.length))) := by
  intro calls
  induction calls with
  | nil => intro c n hl hc; simpa using hc
  | cons p rest ih =>
    obtain ⟨a, k⟩ := p
    intro c n hl hc
    have hw := count_calls_step m qn c a k n hl (Or.inr hc)
    have hcast : n + ((rest.length + 1 : Nat) : Int) = (n + 1) + (rest.length : Int) := by
      push_cast
      ring
    simp only [iterCalls, List.length_cons, hcast, hw]
    set c1 : CacheState := { c with redis := rset c.redis qn (intToDec (n + 1)) } with hc1
    have hl2 : ((m c1 a k).1).live = true := by
      rw [(hpres c1 a k).1]
      exact hl
    have hc2 : rlookup ((m c1 a k).1).redis qn = some (RVal.str (intToDec (n + 1))) := by
      rw [(hpres c1 a k).2]
      exact rlookup_rsetVal_self c.redis qn _
    exact ih (m c1 a k).1 (n + 1) hl2 hc2

/-- C4: for any method wrapped by count_calls whose body leaves the
counter key and the handle alone, after n invocations — whether or not
each body completed, since no completion is assumed — the counter under
the method's qualified name reads n; and on any live state whose counter
holds the text of n, the wrapped call is exactly the body run on the
state whose counter has already been bumped to n + 1, i.e. the increment
is issued before the underlying call executes. -/
theorem count_calls_counts_every_invocation {α κ β : Type} (m : Meth α κ β) (qn : String)
    (hpres : ∀ c a k, ((m c a k).1).live = c.live
      ∧ rlookup ((m c a k).1).redis qn = rlookup c.redis qn)
    (c : CacheState) (hlive : c.live = true) (hctr0 : rlookup c.redis qn = none)
    (calls : List (α × κ)) :
    readCounter (iterCalls (count_calls qn m) c calls).1.redis qn = calls.length
    ∧ ∀ (c1 : CacheState) (a : α) (k : κ) (n : Int), c1.live = true →
        rlookup c1.redis qn = some (RVal.str (intToDec n)) →
        count_calls qn m c1 a k
          = m { c1 with redis := rset c1.redis qn (intToDec (n + 1)) } a k := by
  constructor
  · match calls with
    | [] =>
      show readCounter c.redis qn = ((0 : Nat) : Int)
      rw [readCounter_absent c.redis qn hctr0]
      simp
    | (a, k) :: rest =>
      have hw := count_calls_step m qn c a k 0 hlive (Or.inl ⟨hctr0, rfl⟩)
      norm_num at hw
      simp only [iterCalls, hw]
      set c1 : CacheState := { c with redis := rset c.redis qn (intToDec 1) } with hc1
      have hl2 : ((m c1 a k).1).live = true := by
        rw [(hpres c1 a k).1]
        exact hlive
      have hc2 : rlookup ((m c1 a k).1).redis qn = some (RVal.str (intToDec 1)) := by
        rw [(hpres c1 a k).2]
        exact rlookup_rsetVal_self c.redis qn _
      have hfin := iter_count_aux m qn hpres rest (m c1 a k).1 1 hl2 hc2
      rw [readCounter_some _ _ _ hfin]
      show (1 : Int) + (rest.length : Int) = (((rest.length + 1 : Nat)) : Int)
      push_cast
      ring
  · intro c1 a k n hl1 hc1
    exact count_calls_step m qn c1 a k n hl1 (Or.inr hc1)

theorem count_calls_counts_every_invocation_witness :
    readCounter (iterCalls (count_calls storeQN meth42) cacheFresh
      [((), ()), ((), ()), ((), ())]).1.redis storeQN = 3 := by
  have h := count_calls_counts_every_invocation meth42 storeQN
    (fun _ _ _ => ⟨rfl, rfl⟩) cacheFresh rfl rfl [((), ()), ((), ()), ((), ())]
  exact h.1

theorem call_history_one_call {α κ β : Type} (m : Meth α κ β) (qn : String)
    (serIn : α → String) (serOut : β → Except Unit String) (c c1 c2 : CacheState) (a : α) (k : κ)
    (Lin Lout : List String) (b : β) (os : String)
    (hlive : c.live = true)
    (hin : logIs c.redis (qn ++ ":inputs") Lin)
    (hout : logIs c.redis (qn ++ ":outputs") Lout)
    (hc1 : c1 = { c with redis := rsetVal c.redis (qn ++ ":inputs") (RVal.list (Lin ++ [serIn a])) })
    (hm : m c1 a k = (c2, some b))
    (hl2 : c2.live = true)
    (hout2 : rlookup c2.redis (qn ++ ":outputs") = rlookup c.redis (qn ++ ":outputs"))
    (hos : serOut b = Except.ok os) :
    call_history qn serIn serOut m c a k
      = ({ c2 with redis := rsetVal c2.redis (qn ++ ":outputs") (RVal.list (Lout ++ [os])) }, some b) := by
  have hpush := rpush_of_logIs c.redis (qn ++ ":inputs") Lin (serIn a) hin
  have hout1 : logIs c2.redis (qn ++ ":outputs") Lout := by
    unfold logIs at hout ⊢
    rw [hout2]
    exact hout
  have hpush2 := rpush_of_logIs c2.redis (qn ++ ":outputs") Lout os hout1
  subst hc1
  unfold call_history
  simp only [hlive] at hm
  simp only [hlive, if_true, hpush, hm, hl2, hos, hpush2]

theorem iter_history_aux {α κ β : Type} (m : Meth α κ β) (qn : String) (serIn : α → String)
    (serOut : β → Except Unit String)
    (hpres : ∀ c a k, ((m c a k).1).live = c.live
      ∧ rlookup ((m c a k).1).redis (qn ++ ":inputs") = rlookup c.redis (qn ++ ":inputs")
      ∧ rlookup ((m c a k).1).redis (qn ++ ":outputs") = rlookup c.redis (qn ++ ":outputs"))
    (hcomp : ∀ c a k, ∃ b, (m c a k).2 = some b)
    (hser : ∀ b, ∃ os, serOut b = Except.ok os) :
    ∀ (calls : List (α × κ)) (c : CacheState) (Lin Lout : List String), c.live = true →
      logIs c.redis (qn ++ ":inputs") Lin → logIs c.redis (qn ++ ":outputs") Lout →
      ∃ oss : List String,
        (iterCalls (call_history qn serIn serOut m) c calls).1.live = true
        ∧ logIs (iterCalls (call_history qn serIn serOut m) c calls).1.redis (qn ++ ":inputs")
            (Lin ++ calls.map (fun p => serIn p.1))
        ∧ logIs (iterCalls (call_history qn serIn serOut m) c calls).1.redis (qn ++ ":outputs")
            (Lout ++ oss)
        ∧ List.Forall₂ (fun r os => ∃ b, r = some b ∧ serOut b = Except.ok os)
            (iterCalls (call_history qn serIn serOut m) c calls).2 oss := by
  intro calls
  induction calls with
  | nil =>
    intro c Lin Lout hl hin hout
    exact ⟨[], hl, by simpa using hin, by simpa using hout, List.Forall₂.nil⟩
  | cons p rest ih =>
    obtain ⟨a, k⟩ := p
    intro c Lin Lout hl hin hout
    set c1 : CacheState :=
      { c with redis := rsetVal c.redis (qn ++ ":inputs") (RVal.list (Lin ++ [serIn a])) } with hc1
    obtain ⟨b, hb⟩ := hcomp c1 a k
    obtain ⟨os, hos⟩ := hser b
    obtain ⟨hpl, hpin, hpout⟩ := hpres c1 a k
    have hm : m c1 a k = ((m c1 a k).1, some b) := by
      rw [← hb]
    have hl2 : ((m c1 a k).1).live = true := by
      rw [hpl]
      exact hl
    have houtc1 : rlookup c1.redis (qn ++ ":outputs") = rlookup c.redis (qn ++ ":outputs") :=
      rlookup_rsetVal_ne c.redis _ _ _ (fun h => inputs_ne_outputs qn h.symm)
    have hout2 : rlookup ((m c1 a k).1).redis (qn ++ ":outputs")
        = rlookup c.redis (qn ++ ":outputs") := by
      rw [hpout, houtc1]
    have hstep := call_history_one_call m qn serIn serOut c c1 (m c1 a k).1 a k
      Lin Lout b os hl hin hout hc1 hm hl2 hout2 hos
    set c3 : CacheState := { (m c1 a k).1 with
      redis := rsetVal ((m c1 a k).1).redis (qn ++ ":outputs") (RVal.list (Lout ++ [os])) } with hc3
    have hinc1 : rlookup c1.redis (qn ++ ":inputs")
        = some (RVal.list (Lin ++ [serIn a])) := rlookup_rsetVal_self c.redis _ _
    have hin3 : logIs c3.redis (qn ++ ":inputs") (Lin ++ [serIn a]) := by
      unfold logIs
      right
      show rlookup (rsetVal ((m c1 a k).1).redis (qn ++ ":outputs") (RVal.list (Lout ++ [os])))
        (qn ++ ":inputs") = _
      rw [rlookup_rsetVal_ne _ _ _ _ (inputs_ne_outputs qn), hpin, hinc1]
    have hout3 : logIs c3.redis (qn ++ ":outputs") (Lout ++ [os]) := by
      unfold logIs
      right
      exact rlookup_rsetVal_self _ _ _
    have hl3 : c3.live = true := hl2
    obtain ⟨oss, hfl, hfin, hfout, hff⟩ := ih c3 (Lin ++ [serIn a]) (Lout ++ [os]) hl3 hin3 hout3
    refine ⟨os :: oss, ?_, ?_, ?_, ?_⟩
    · simpa [iterCalls, hstep] using hfl
    · have he : (Lin ++ [serIn a]) ++ rest.map (fun p => serIn p.1)
          = Lin ++ ((a, k) :: rest).map (fun p => serIn p.1) := by
        simp
      rw [← he]
      simpa [iterCalls, hstep] using hfin
    · have he : (Lout ++ [os]) ++ oss = Lout ++ (os :: oss) := by
        simp
      rw [← he]
      simpa [iterCalls, hstep] using hfout
    · have hres : (iterCalls (call_history qn serIn serOut m) c ((a, k) :: rest)).2
          = some b :: (iterCalls (call_history qn serIn serOut m) c3 rest).2 := by
        simp [iterCalls, hstep]
      rw [hres]
      exact List.Forall₂.cons ⟨b, rfl, hos⟩ hff

/-- C5: for any method wrapped by call_history whose body completes on
every call, leaves the handle and the two log keys alone, and whose
outputs are encodable, after n calls starting from empty logs the inputs
log holds exactly the n serialized positional tuples (so has length n),
the outputs log has length n, and entry i of the outputs log is the
serialization of the literal return value of call i, which the wrapped
method returned unchanged. -/
theorem call_history_logs_paired_inputs_outputs {α κ β : Type} (m : Meth α κ β) (qn : String)
    (serIn : α → String) (serOut : β → Except Unit String)
    (hpres : ∀ c a k, ((m c a k).1).live = c.live
      ∧ rlookup ((m c a k).1).redis (qn ++ ":inputs") = rlookup c.redis (qn ++ ":inputs")
      ∧ rlookup ((m c a k).1).redis (qn ++ ":outputs") = rlookup c.redis (qn ++ ":outputs"))
    (hcomp : ∀ c a k, ∃ b, (m c a k).2 = some b)
    (hser : ∀ b, ∃ os, serOut b = Except.ok os)
    (c : CacheState) (hlive : c.live = true)
    (hin0 : logIs c.redis (qn ++ ":inputs") [])
    (hout0 : logIs c.redis (qn ++ ":outputs") [])
    (calls : List (α × κ)) :
    ∃ oss : List String,
      logIs (iterCalls (call_history qn serIn serOut m) c calls).1.redis (qn ++ ":inputs")
        (calls.map (fun p => serIn p.1))
      ∧ logIs (iterCalls (call_history qn serIn serOut m) c calls).1.redis (qn ++ ":outputs") oss
      ∧ (calls.map (fun p => serIn p.1)).length = calls.length
      ∧ oss.length = calls.length
      ∧ List.Forall₂ (fun r os => ∃ b, r = some b ∧ serOut b = Except.ok os)
          (iterCalls (call_history qn serIn serOut m) c calls).2 oss := by
  obtain ⟨oss, hfl, hfin, hfout, hff⟩ :=
    iter_history_aux m qn serIn serOut hpres hcomp hser calls c [] [] hlive hin0 hout0
  refine ⟨oss, by simpa using hfin, by simpa using hfout, by simp, ?_, hff⟩
  have hlen := List.Forall₂.length_eq hff
  rw [← hlen, iterCalls_results_length]

theorem call_history_logs_paired_inputs_outputs_witness :
    ∃ oss : List String,
      logIs (iterCalls (call_history storeQN serInU serOutS methR) cacheFresh callsTwo).1.redis
        (storeQN ++ ":inputs") (callsTwo.map (fun p => serInU p.1))
      ∧ logIs (iterCalls (call_history storeQN serInU serOutS methR) cacheFresh callsTwo).1.redis
          (storeQN ++ ":outputs") oss
      ∧ (callsTwo.map (fun p => serInU p.1)).length = callsTwo.length
      ∧ oss.length = callsTwo.length
      ∧ List.Forall₂ (fun r os => ∃ b, r = some b ∧ serOutS b = Except.ok os)
          (iterCalls (call_history storeQN serInU serOutS methR) cacheFresh callsTwo).2 oss :=
  call_history_logs_paired_inputs_outputs methR storeQN serInU serOutS
    (fun _ _ _ => ⟨rfl, rfl, rfl⟩) (fun _ _ _ => ⟨"r", rfl⟩) (fun b => ⟨b, rfl⟩)
    cacheFresh rfl (Or.inl ⟨rfl, rfl⟩) (Or.inl ⟨rfl, rfl⟩) callsTwo

/-- C10: keyword arguments flow through call_history to the underlying
method unchanged (the probe body returning its keyword arguments shows
the wrapper hands them over verbatim and returns the body's output
untouched), while the entry appended to the inputs log is the
serialization of the positional tuple alone — the recorded history is
the same for any two keyword-argument values. -/
theorem call_history_kwargs_passthrough_not_logged {α κ : Type} (qn : String)
    (serIn : α → String) (serOutK : κ → Except Unit String) (c : CacheState) (a : α) (k k2 : κ)
    (Lin Lout : List String) (os os2 : String)
    (hlive : c.live = true)
    (hin : logIs c.redis (qn ++ ":inputs") Lin)
    (hout : logIs c.redis (qn ++ ":outputs") Lout)
    (hos : serOutK k = Except.ok os)
    (hos2 : serOutK k2 = Except.ok os2) :
    call_history qn serIn serOutK methKw c a k
      = (withRedis c (rsetVal
          (rsetVal c.redis (qn ++ ":inputs") (RVal.list (Lin ++ [serIn a])))
          (qn ++ ":outputs") (RVal.list (Lout ++ [os]))), some k)
    ∧ call_history qn serIn serOutK methKw c a k2
      = (withRedis c (rsetVal
          (rsetVal c.redis (qn ++ ":inputs") (RVal.list (Lin ++ [serIn a])))
          (qn ++ ":outputs") (RVal.list (Lout ++ [os2]))), some k2)
    ∧ rlookup (rsetVal (rsetVal c.redis (qn ++ ":inputs") (RVal.list (Lin ++ [serIn a])))
          (qn ++ ":outputs") (RVal.list (Lout ++ [os]))) (qn ++ ":inputs")
      = some (RVal.list (Lin ++ [serIn a])) := by
  set c1 : CacheState :=
    { c with redis := rsetVal c.redis (qn ++ ":inputs") (RVal.list (Lin ++ [serIn a])) } with hc1
  have hout2 : rlookup c1.redis (qn ++ ":outputs") = rlookup c.redis (qn ++ ":outputs") :=
    rlookup_rsetVal_ne c.redis _ _ _ (fun h => inputs_ne_outputs qn h.symm)
  refine ⟨?_, ?_, ?_⟩
  · exact call_history_one_call methKw qn serIn serOutK c c1 c1 a k Lin Lout k os
      hlive hin hout hc1 rfl hlive hout2 hos
  · exact call_history_one_call methKw qn serIn serOutK c c1 c1 a k2 Lin Lout k2 os2
      hlive hin hout hc1 rfl hlive hout2 hos2
  · rw [rlookup_rsetVal_ne _ _ _ _ (inputs_ne_outputs qn)]
    exact rlookup_rsetVal_self _ _ _

theorem call_history_kwargs_passthrough_not_logged_witness :
    call_history storeQN serInU serOutS methKw cacheFresh () ("kw1")
      = (withRedis cacheFresh (rsetVal
          (rsetVal cacheFresh.redis (storeQN ++ ":inputs") (RVal.list ([] ++ [serInU ()])))
          (storeQN ++ ":outputs") (RVal.list ([] ++ ["kw1"]))), some ("kw1"))
    ∧ call_history storeQN serInU serOutS methKw cacheFresh () ("kw2")
      = (withRedis cacheFresh (rsetVal
          (rsetVal cacheFresh.redis (storeQN ++ ":inputs") (RVal.list ([] ++ [serInU ()])))
          (storeQN ++ ":outputs") (RVal.list ([] ++ ["kw2"]))), some ("kw2"))
    ∧ rlookup (rsetVal (rsetVal cacheFresh.redis (storeQN ++ ":inputs")
          (RVal.list ([] ++ [serInU ()])))
          (storeQN ++ ":outputs") (RVal.list ([] ++ ["kw1"]))) (storeQN ++ ":inputs")
      = some (RVal.list ([] ++ [serInU ()])) :=
  call_history_kwargs_passthrough_not_logged storeQN serInU serOutS cacheFresh () ("kw1") ("kw2")
    [] [] ("kw1") ("kw2") rfl (Or.inl ⟨rfl, rfl⟩) (Or.inl ⟨rfl, rfl⟩) rfl rfl

/-- C1 counterexample: storing the integer 123 in a fresh cache and
reading it back through get returns the byte-string of its decimal text,
not the integer itself, so the round-trip identity fails at v = 123. -/
theorem get_store_int_not_identity :
    (Cache.store cacheFresh (PyObj.pyint 123) ()).2 = some ("keyA")
    ∧ Cache.get (Cache.store cacheFresh (PyObj.pyint 123) ()).1 ("keyA") none
      = Except.ok (PyObj.pybytes ("123"))
    ∧ ¬ (PyObj.pybytes ("123") = PyObj.pyint 123) :=
  ⟨rfl, rfl, by decide⟩

/-- C2: in the scenario fresh facade, k1 = store of the text foo, k2 =
store of the integer 123, the code returns the two keys and the counter
reaches 2, but get_str of k1 evaluates to str() of the raw bytes — the
repr text starting with the letter b — rather than the stored text;
get_int (as the module-level function the source defines) does return
123. The replay lines of the scenario are also evaluated. -/
theorem scenario_get_str_reprs_bytes_get_int_decodes :
    (Cache.store (Cache.init uuidsPair) (PyObj.pystr ("foo")) ()).2 = some ("k1")
    ∧ (Cache.store ((Cache.store (Cache.init uuidsPair) (PyObj.pystr ("foo")) ()).1)
        (PyObj.pyint 123) ()).2 = some ("k2")
    ∧ Cache.get_str scenState ("k1") = Except.ok (some ("b" ++ sQuote ++ "foo" ++ sQuote))
    ∧ ¬ ("b" ++ sQuote ++ "foo" ++ sQuote) = "foo"
    ∧ get_int scenState ("k2") = Except.ok (some 123)
    ∧ rlookup scenState.redis storeQN = some (RVal.str ("2"))
    ∧ replay (FnRef.bound scenState storeQN)
      = Except.ok ["Cache.store was called 2 times:",
          "Cache.store(*(" ++ sQuote ++ "foo" ++ sQuote ++ ",)) -> k1",
          "Cache.store(*(123,)) -> k2"] :=
  ⟨rfl, rfl, rfl, by decide, rfl, rfl, rfl⟩

/-- C3: the source's Cache class body binds only __init__, store, get and
get_str — get_int is dedented to module level, so the facade does not
expose it — while the sentinel-propagation half of the claim does hold:
on a missing key both get_str and the module-level get_int return None. -/
theorem get_int_not_cache_method_and_sentinel_propagation :
    ¬ ("get_int" ∈ cacheMethods)
    ∧ Cache.get_str cacheFresh ("missing") = Except.ok none
    ∧ get_int cacheFresh ("missing") = Except.ok none :=
  ⟨by decide, rfl, rfl⟩

/-- C6 counterexample: with a live handle whose counter key holds a list,
the INCR inside count_calls fails and the failure propagates — the
wrapped call raises (returns no output) and the underlying method, which
on its own would return 42, is never invoked. -/
theorem count_calls_propagates_incr_failure :
    count_calls storeQN meth42 cacheWrongType () () = (cacheWrongType, none)
    ∧ meth42 cacheWrongType () () = (cacheWrongType, some 42) :=
  ⟨rfl, rfl⟩

/-- C7 counterexample: on a never-stored key, get with the integer
transform raises (int() of None is a TypeError), and get with the str
transform returns the text of the word None rather than the absent
sentinel. -/
theorem get_missing_with_transform_can_raise :
    Cache.get cacheFresh ("nope") (some intTransform) = Except.error ()
    ∧ Cache.get cacheFresh ("nope") (some strTransform) = Except.ok (PyObj.pystr ("None"))
    ∧ ¬ (PyObj.pystr ("None") = PyObj.pynone) :=
  ⟨rfl, rfl, by decide⟩

/-- C6 (amended): the counting step skips the increment without error and
still invokes the method only when the handle is not a Redis instance;
with a live handle whose increment fails, the failure propagates and the
underlying method is not invoked. -/
theorem count_calls_skip_vs_propagate {α κ β : Type} (m : Meth α κ β) (qn : String)
    (cDead1 cBad : CacheState) (a : α) (k : κ) (L : List String)
    (hdead : cDead1.live = false)
    (hlive : cBad.live = true)
    (hlist : rlookup cBad.redis qn = some (RVal.list L)) :
    count_calls qn m cDead1 a k = m cDead1 a k
    ∧ count_calls qn m cBad a k = (cBad, none) := by
  constructor
  · unfold count_calls
    simp [hdead]
  · have herr : rincr cBad.redis qn = Except.error () := by
      unfold rincr
      rw [hlist]
    unfold count_calls
    simp [hlive, herr]

theorem count_calls_skip_vs_propagate_witness :
    count_calls storeQN meth42 cacheDead () () = meth42 cacheDead () ()
    ∧ count_calls storeQN meth42 cacheWrongType () () = (cacheWrongType, none) :=
  count_calls_skip_vs_propagate meth42 storeQN cacheDead cacheWrongType () () [] rfl rfl rfl

/-- C7 (amended): get on a never-stored key returns the absent sentinel
and does not raise when no transform is supplied; when a transform is
supplied, get returns the transform applied to the sentinel — whatever
value or failure that application produces. -/
theorem get_missing_sentinel_behavior (c : CacheState) (key : String)
    (hlive : c.live = true) (habs : rlookup c.redis key = none) :
    Cache.get c key none = Except.ok PyObj.pynone
    ∧ ∀ f : PyObj → Except Unit PyObj, Cache.get c key (some f) = f PyObj.pynone := by
  have hg : rget c.redis key = Except.ok none := by
    unfold rget
    rw [habs]
  constructor
  · unfold Cache.get
    simp [hlive, hg]
  · intro f
    unfold Cache.get
    simp [hlive, hg]

theorem get_missing_sentinel_behavior_witness :
    Cache.get cacheFresh ("nope") none = Except.ok PyObj.pynone
    ∧ Cache.get cacheFresh ("nope") (some strTransform) = strTransform PyObj.pynone :=
  ⟨(get_missing_sentinel_behavior cacheFresh ("nope") rfl rfl).1,
   (get_missing_sentinel_behavior cacheFresh ("nope") rfl rfl).2 strTransform⟩

/-- C8: a value outside the allowed scalar types makes the store body
raise (the encoder refuses it) before anything is written — the raw body
returns no key and leaves the keyspace unchanged, and the fully decorated
store call also raises rather than storing a coerced value. -/
theorem store_rejects_non_scalar (c : CacheState) (v : PyObj)
    (hlive : c.live = true) (hv : isAllowedScalar v = false) :
    Cache.storeBody c v () = ({ c with tick := c.tick + 1 }, none)
    ∧ redisEncode v = Except.error ()
    ∧ (Cache.store c v ()).2 = none := by
  have henc : redisEncode v = Except.error () := by
    cases v <;> simp_all [isAllowedScalar, redisEncode]
  refine ⟨?_, henc, ?_⟩
  · unfold Cache.storeBody
    simp [hlive, henc]
  · show (count_calls storeQN
      (call_history storeQN pyReprArgs1 (fun s => redisEncode (PyObj.pystr s)) Cache.storeBody)
      c v ()).2 = none
    unfold count_calls
    simp only [hlive, if_true]
    rcases hr : rincr c.redis storeQN with e | p
    · rfl
    · unfold call_history
      rcases hp : rpush p.1 (storeQN ++ ":inputs") (pyReprArgs1 v) with e2 | r1
      · simp [hlive, hp]
      · simp [hlive, hp, Cache.storeBody, henc]

theorem store_rejects_non_scalar_witness :
    Cache.storeBody cacheFresh PyObj.pynone ()
      = ({ cacheFresh with tick := cacheFresh.tick + 1 }, none)
    ∧ redisEncode PyObj.pynone = Except.error ()
    ∧ (Cache.store cacheFresh PyObj.pynone ()).2 = none :=
  store_rejects_non_scalar cacheFresh PyObj.pynone rfl rfl

/-- C9: on a bound method over a live handle whose counter and logs are in
their data-model shapes (counter absent-or-integer, logs absent-or-lists),
replay renders the summary line — with count 0 when the counter was never
incremented — followed by exactly one line per zipped input/output index
in stored order; the number of call lines is the minimum of the two log
lengths, so unequal logs render only the overlapping prefix instead of
failing, and a never-called method gets the 0-times summary and no call
lines. -/
theorem replay_renders_summary_and_zipped_history (c : CacheState) (qn : String) (n : Int)
    (ins outs : List String)
    (hlive : c.live = true)
    (hctr : ctrIs c.redis qn n)
    (hin : logIs c.redis (qn ++ ":inputs") ins)
    (hout : logIs c.redis (qn ++ ":outputs") outs) :
    replay (FnRef.bound c qn)
      = Except.ok ((qn ++ " was called " ++ intToDec n ++ " times:")
          :: List.zipWith (replayLine qn) ins outs)
    ∧ (List.zipWith (replayLine qn) ins outs).length = min ins.length outs.length
    ∧ (rlookup c.redis qn = none → n = 0) := by
  refine ⟨?_, ?_, ?_⟩
  · unfold replay replayLines
    simp [hlive, replayCount_of_ctrIs c.redis qn n hctr,
      rlrangeAll_of_logIs _ _ _ hin, rlrangeAll_of_logIs _ _ _ hout]
  · exact List.length_zipWith _ _ _
  · intro h0
    rcases hctr with ⟨_, hn⟩ | h1
    · exact hn
    · rw [h0] at h1
      cases h1

theorem replay_renders_summary_and_zipped_history_witness :
    replay (FnRef.bound cacheUneven storeQN)
      = Except.ok ((storeQN ++ " was called " ++ intToDec 2 ++ " times:")
          :: List.zipWith (replayLine storeQN) ["(1,)", "(2,)", "(3,)"] ["ka", "kb"])
    ∧ (List.zipWith (replayLine storeQN) ["(1,)", "(2,)", "(3,)"] ["ka", "kb"]).length
      = min (["(1,)", "(2,)", "(3,)"] : List String).length (["ka", "kb"] : List String).length
    ∧ (rlookup cacheUneven.redis storeQN = none → (2 : Int) = 0) :=
  replay_renders_summary_and_zipped_history cacheUneven storeQN 2
    ["(1,)", "(2,)", "(3,)"] ["ka", "kb"] rfl (Or.inr rfl) (Or.inr rfl) (Or.inr rfl)

/-- C1 (amended): for every allowed scalar v stored through the fully
decorated store on a live, well-formed state (fresh uuid key, counter and
logs in their data-model shapes), get on the returned key yields the
byte-string holding the store's encoding of v — and that byte-string
equals v itself exactly when v is a byte-sequence, so the round-trip
identity holds for bytes and for no other scalar type. -/
theorem get_store_returns_encoded_bytes (c : CacheState) (v : PyObj) (ev : String) (n : Int)
    (Lin Lout : List String)
    (hlive : c.live = true)
    (hev : redisEncode v = Except.ok ev)
    (hkey : ¬ c.uuids c.tick ∈ instrKeys)
    (hctr : ctrIs c.redis storeQN n)
    (hin : logIs c.redis (storeQN ++ ":inputs") Lin)
    (hout : logIs c.redis (storeQN ++ ":outputs") Lout) :
    (Cache.store c v ()).2 = some (c.uuids c.tick)
    ∧ Cache.get (Cache.store c v ()).1 (c.uuids c.tick) none = Except.ok (PyObj.pybytes ev)
    ∧ (PyObj.pybytes ev = v ↔ ∃ b, v = PyObj.pybytes b) := by
  simp only [instrKeys, List.mem_cons, List.not_mem_nil, or_false, not_or] at hkey
  obtain ⟨hk1, hk2, hk3⟩ := hkey
  have hneIC : ¬ (storeQN ++ ":inputs") = storeQN := by decide
  have hneOC : ¬ (storeQN ++ ":outputs") = storeQN := by decide
  have hneOI : ¬ (storeQN ++ ":outputs") = storeQN ++ ":inputs" :=
    fun h => inputs_ne_outputs storeQN h.symm
  set key := c.uuids c.tick with hkeydef
  set c1 : CacheState := { c with redis := rset c.redis storeQN (intToDec (n + 1)) } with hc1
  have hlcin : rlookup c1.redis (storeQN ++ ":inputs") = rlookup c.redis (storeQN ++ ":inputs") := by
    show rlookup (rset c.redis storeQN (intToDec (n + 1))) (storeQN ++ ":inputs") = _
    unfold rset
    exact rlookup_rsetVal_ne _ _ _ _ hneIC
  have hlcout : rlookup c1.redis (storeQN ++ ":outputs")
      = rlookup c.redis (storeQN ++ ":outputs") := by
    show rlookup (rset c.redis storeQN (intToDec (n + 1))) (storeQN ++ ":outputs") = _
    unfold rset
    exact rlookup_rsetVal_ne _ _ _ _ hneOC
  have hin1 : logIs c1.redis (storeQN ++ ":inputs") Lin := by
    unfold logIs at hin ⊢
    rw [hlcin]
    exact hin
  have hout1 : logIs c1.redis (storeQN ++ ":outputs") Lout := by
    unfold logIs at hout ⊢
    rw [hlcout]
    exact hout
  set c2 : CacheState := { c1 with
    redis := rsetVal c1.redis (storeQN ++ ":inputs") (RVal.list (Lin ++ [pyReprArgs1 v])) } with hc2
  set c3 : CacheState := { c2 with tick := c2.tick + 1, redis := rset c2.redis key ev } with hc3
  have hm : Cache.storeBody c2 v () = (c3, some key) := by
    unfold Cache.storeBody
    simp only [hc3]
    simp [hlive, hev]
  have hl3 : c3.live = true := hlive
  have hout3 : rlookup c3.redis (storeQN ++ ":outputs")
      = rlookup c1.redis (storeQN ++ ":outputs") := by
    show rlookup (rset c2.redis key ev) (storeQN ++ ":outputs") = _
    unfold rset
    rw [rlookup_rsetVal_ne _ _ _ _ (fun h => hk3 h.symm)]
    show rlookup (rsetVal c1.redis (storeQN ++ ":inputs") (RVal.list (Lin ++ [pyReprArgs1 v])))
      (storeQN ++ ":outputs") = _
    rw [rlookup_rsetVal_ne _ _ _ _ hneOI]
  have hserk : (fun s => redisEncode (PyObj.pystr s)) key = Except.ok key := rfl
  have hstep2 := call_history_one_call Cache.storeBody storeQN pyReprArgs1
    (fun s => redisEncode (PyObj.pystr s)) c1 c2 c3 v () Lin Lout key key
    hlive hin1 hout1 hc2 hm hl3 hout3 hserk
  have hstore : Cache.store c v ()
      = ({ c3 with redis := rsetVal c3.redis (storeQN ++ ":outputs") (RVal.list (Lout ++ [key])) },
         some key) := by
    show count_calls storeQN
      (call_history storeQN pyReprArgs1 (fun s => redisEncode (PyObj.pystr s)) Cache.storeBody)
      c v () = _
    rw [count_calls_step _ storeQN c v () n hlive hctr]
    exact hstep2
  have hlook : rlookup (rsetVal c3.redis (storeQN ++ ":outputs") (RVal.list (Lout ++ [key]))) key
      = some (RVal.str ev) := by
    rw [rlookup_rsetVal_ne _ _ _ _ hk3]
    show rlookup (rset c2.redis key ev) key = _
    unfold rset
    exact rlookup_rsetVal_self _ _ _
  refine ⟨by rw [hstore], ?_, ?_⟩
  · rw [hstore]
    have hrg : rget (rsetVal c3.redis (storeQN ++ ":outputs") (RVal.list (Lout ++ [key]))) key
        = Except.ok (some ev) := by
      unfold rget
      rw [hlook]
    unfold Cache.get
    simp [hlive, hrg]
  · constructor
    · intro h
      exact ⟨ev, h.symm⟩
    · rintro ⟨b, rfl⟩
      simp only [redisEncode, Except.ok.injEq] at hev
      rw [hev]

theorem get_store_returns_encoded_bytes_witness :
    (Cache.store cacheFresh (PyObj.pybytes ("zz")) ()).2 = some (cacheFresh.uuids cacheFresh.tick)
    ∧ Cache.get (Cache.store cacheFresh (PyObj.pybytes ("zz")) ()).1
        (cacheFresh.uuids cacheFresh.tick) none = Except.ok (PyObj.pybytes ("zz"))
    ∧ (PyObj.pybytes ("zz") = PyObj.pybytes ("zz")
        ↔ ∃ b, PyObj.pybytes ("zz") = PyObj.pybytes b) :=
  get_store_returns_encoded_bytes cacheFresh (PyObj.pybytes ("zz")) ("zz") 0 [] []
    rfl rfl (by decide) (Or.inl ⟨rfl, rfl⟩) (Or.inl ⟨rfl, rfl⟩) (Or.inl ⟨rfl, rfl⟩)
